import Mathlib

/-!
Verification development for the Intska brain-training game core:
a shallow embedding of `src/js/core/difficulty.js`, the challenge
registry (`ChallengeRegistry`), and the game engine
(`src/js/core/engine.js`, `GameEngine`), with theorems settling the
spec claims about them.

Conventions of the embedding:
* JS numbers that only ever hold integers are modelled as `Int`
  (lives may go negative, so not `Nat`); time quantities as `Rat`.
* `Math.floor(x / k)` on integers is `Int.ediv` (floor division for a
  positive divisor); `Math.max`/`Math.min` are `max`/`min`.
* Fallible code is `Except`; `Math.random()`-driven selection is
  parameterised by an arbitrary natural `rand`, mapped into range the
  way `Math.floor(Math.random() * n)` always lands in `[0, n)`.
-/

namespace Intska

/-! ## Difficulty scaler (`src/js/core/difficulty.js`) -/

/-- Math challenge parameters, the fields of the object literal built by
`getMathDifficulty`. -/
structure MathParams where
  minNumber : Int
  maxNumber : Int
  operations : List String
  wordProblemSteps : Int
  maxDenominator : Int
  divisorMax : Int
  timeLimit : Int
deriving DecidableEq

/-- `getOperations(level)`. -/
def getOperations (level : Int) : List String :=
  if level < 3 then ["+", "-"]
  else if level < 6 then ["+", "-", "*"]
  else ["+", "-", "*", "/"]

/-- `getMathDifficulty(level)`. -/
def getMathDifficulty (level : Int) : MathParams :=
  { minNumber := max 1 level
    maxNumber := 10 + level * 5
    operations := getOperations level
    wordProblemSteps := min (1 + Int.ediv level 5) 3
    maxDenominator := min (5 + level) 20
    divisorMax := min (5 + level) 15
    timeLimit := max 8 (15 - Int.ediv level 3) }

/-- Logic challenge parameters (`getLogicDifficulty`). -/
structure LogicParams where
  sequenceLength : Int
  sequenceStep : Int
  patternRules : Int
  itemCount : Int
  logicLayers : Int
  gridSize : Int
  choiceCount : Int
  timeLimit : Int
deriving DecidableEq

/-- `getLogicDifficulty(level)`. -/
def getLogicDifficulty (level : Int) : LogicParams :=
  { sequenceLength := 4 + Int.ediv level 2
    sequenceStep := 1 + Int.ediv level 3
    patternRules := min (1 + Int.ediv level 4) 3
    itemCount := min (4 + Int.ediv level 2) 12
    logicLayers := min (1 + Int.ediv level 3) 4
    gridSize := min (3 + Int.ediv level 4) 6
    choiceCount := min (3 + Int.ediv level 5) 6
    timeLimit := max 10 (20 - Int.ediv level 2) }

/-- Memory challenge parameters (`getMemoryDifficulty`). -/
structure MemoryParams where
  sequenceLength : Int
  flashSpeed : Int
  gridRows : Int
  gridCols : Int
  activeCells : Int
  uniqueItems : Int
  totalItems : Int
  matchesToFind : Int
  timeLimit : Int
deriving DecidableEq

/-- `getMemoryDifficulty(level)`. -/
def getMemoryDifficulty (level : Int) : MemoryParams :=
  { sequenceLength := 3 + Int.ediv level 2
    flashSpeed := max 300 (800 - level * 30)
    gridRows := min (3 + Int.ediv level 3) 6
    gridCols := min (3 + Int.ediv level 3) 6
    activeCells := min (3 + level) 20
    uniqueItems := min (4 + Int.ediv level 2) 10
    totalItems := min (12 + level * 2) 50
    matchesToFind := min (1 + Int.ediv level 5) 5
    timeLimit := max 15 (25 - Int.ediv level 2) }

/-- Puzzle challenge parameters (`getPuzzleDifficulty`). -/
structure PuzzleParams where
  itemCount : Int
  categoryCount : Int
  tileGridSize : Int
  cupCount : Int
  shuffleMoves : Int
  shuffleSpeed : Int
  containerCount : Int
  rotationTolerance : Int
  wordLength : Int
  cubeStackSize : Int
  colorCount : Int
  gridSize : Int
  timeLimit : Int
deriving DecidableEq

/-- `getPuzzleDifficulty(level)`. -/
def getPuzzleDifficulty (level : Int) : PuzzleParams :=
  { itemCount := min (4 + level) 15
    categoryCount := min (2 + Int.ediv level 8) 4
    tileGridSize := min (3 + Int.ediv level 5) 5
    cupCount := min (3 + Int.ediv level 4) 7
    shuffleMoves := min (3 + level) 15
    shuffleSpeed := max 300 (800 - level * 25)
    containerCount := min (3 + Int.ediv level 3) 8
    rotationTolerance := max 5 (15 - level)
    wordLength := min (4 + Int.ediv level 3) 10
    cubeStackSize := min (3 + Int.ediv level 2) 8
    colorCount := min (3 + Int.ediv level 4) 6
    gridSize := min (8 + Int.ediv level 3) 15
    timeLimit := max 12 (20 - Int.ediv level 2) }

/-- The values `configs[challengeType]` can take in
`getDifficultyParams`: one of the four own-property parameter shapes, or
— because a JS bracket lookup on an object literal consults the
prototype chain — a member inherited from `Object.prototype` (a
function object, or `Object.prototype` itself for `__proto__`), opaque
here beyond its property name. -/
inductive DifficultyParams where
  | math (p : MathParams)
  | logic (p : LogicParams)
  | memory (p : MemoryParams)
  | puzzle (p : PuzzleParams)
  | protoMember (name : String)
deriving DecidableEq

/-- The property names an object literal inherits from
`Object.prototype` (ECMA-262 §20.2.3 plus the Annex B
`__defineGetter__` family and the `__proto__` accessor, all present in
every mainstream engine).  Reading any of them off `configs` yields a
truthy value — a function, or `Object.prototype` for `__proto__`. -/
def objectPrototypeKeys : List String :=
  ["constructor", "hasOwnProperty", "isPrototypeOf", "propertyIsEnumerable",
   "toLocaleString", "toString", "valueOf", "__proto__", "__defineGetter__",
   "__defineSetter__", "__lookupGetter__", "__lookupSetter__"]

/-- `getDifficultyParams(challengeType, difficulty)`:
`configs[challengeType] || configs.math`.  The bracket lookup first
finds the four own properties; any other key is looked up on the
prototype chain, where an `Object.prototype` member is found — truthy,
so returned as is by `||`; only a key absent there too yields
`undefined`, and the `||` then falls back to the math parameters. -/
def getDifficultyParams (challengeType : String) (difficulty : Int) :
    DifficultyParams :=
  if challengeType = "math" then .math (getMathDifficulty difficulty)
  else if challengeType = "logic" then .logic (getLogicDifficulty difficulty)
  else if challengeType = "memory" then .memory (getMemoryDifficulty difficulty)
  else if challengeType = "puzzle" then .puzzle (getPuzzleDifficulty difficulty)
  else if challengeType ∈ objectPrototypeKeys then .protoMember challengeType
  else .math (getMathDifficulty difficulty)

/-- `getTimerReduction(difficulty)`: `Math.floor(difficulty / 3) * 0.5`. -/
def getTimerReduction (difficulty : Int) : Rat :=
  (Int.ediv difficulty 3 : Rat) * (1 / 2)

/-- `getBaseTimer(challengeBaseTime, difficulty)`: the challenge's static
base time minus the difficulty reduction, clamped to a hard minimum of 5. -/
def getBaseTimer (challengeBaseTime : Rat) (difficulty : Int) : Rat :=
  max (challengeBaseTime - getTimerReduction difficulty) 5

/-! ## Challenge registry (`ChallengeRegistry`) -/

/-- The metadata stored inside a `ChallengeRecord` after `register` has
filled in defaults.  `maxDifficulty` is `none` for `Infinity`. -/
structure ChallengeMetadata where
  name : String
  description : String
  minDifficulty : Int
  maxDifficulty : Option Int
  baseTime : Rat
deriving DecidableEq

/-- The optional `metadata` argument of `register`: each field may be
absent (`undefined` in JS). -/
structure MetadataInput where
  name : Option String
  description : Option String
  minDifficulty : Option Int
  maxDifficulty : Option Int
  baseTime : Option Rat
deriving DecidableEq

/-- `register(id, category, factory)` with the `metadata` parameter
omitted entirely: the default `{}` has every field absent. -/
def emptyMetadata : MetadataInput := ⟨none, none, none, none, none⟩

/-- JS `v || d` for an optional numeric field: an absent field
(`undefined`) and the number `0` are both falsy. -/
def jsOrInt (v : Option Int) (d : Int) : Int :=
  match v with
  | none => d
  | some x => if x = 0 then d else x

/-- JS `v || d` for an optional time field (same falsiness rule). -/
def jsOrTime (v : Option Rat) (d : Rat) : Rat :=
  match v with
  | none => d
  | some x => if x = 0 then d else x

/-- JS `v || d` for an optional string field: `undefined` and the empty
string are both falsy. -/
def jsOrStr (v : Option String) (d : String) : String :=
  match v with
  | none => d
  | some x => if x = "" then d else x

/-- JS `metadata.maxDifficulty || Infinity`: absent or `0` yields
`Infinity` (modelled as `none`). -/
def jsOrInfinity (v : Option Int) : Option Int :=
  match v with
  | none => none
  | some x => if x = 0 then none else some x

/-- A registered challenge record `{id, category, factory, metadata}`.
The factory function is opaque to this model and carried through
unchanged as a value of an arbitrary type `F`. -/
structure ChallengeRecord (F : Type) where
  id : String
  category : String
  factory : F
  metadata : ChallengeMetadata
deriving DecidableEq

/-- The record `register` builds and stores: metadata defaults are
`name = id`, `description = ''`, `minDifficulty = 1`,
`maxDifficulty = Infinity`, `baseTime = 20`. -/
def buildRecord (F : Type) (id category : String) (factory : F)
    (metadata : MetadataInput) : ChallengeRecord F :=
  { id := id
    category := category
    factory := factory
    metadata :=
      { name := jsOrStr metadata.name id
        description := jsOrStr metadata.description ""
        minDifficulty := jsOrInt metadata.minDifficulty 1
        maxDifficulty := jsOrInfinity metadata.maxDifficulty
        baseTime := jsOrTime metadata.baseTime 20 } }

/-- The registry's `challenges` map, as its list of records in insertion
order (a JS `Map` preserves insertion order; `set` on an existing key
overwrites in place). -/
def register {F : Type} (reg : List (ChallengeRecord F))
    (id category : String) (factory : F) (metadata : MetadataInput) :
    List (ChallengeRecord F) :=
  let r := buildRecord F id category factory metadata
  if reg.any (fun x => x.id = id) then
    reg.map (fun x => if x.id = id then r else x)
  else
    reg ++ [r]

/-- The availability filter of `getRandomChallenge`:
`difficulty >= minDifficulty && difficulty <= maxDifficulty`, where a
comparison against `Infinity` is true. -/
def eligibleAt (difficulty : Int) {F : Type} (r : ChallengeRecord F) : Bool :=
  decide (r.metadata.minDifficulty ≤ difficulty) &&
    match r.metadata.maxDifficulty with
    | none => true
    | some m => decide (difficulty ≤ m)

/-- `getRandomChallenge(difficulty)`: filters the registered records by
`eligibleAt`, throws when none is available, and otherwise returns the
record (not an instantiated challenge) at index
`Math.floor(Math.random() * available.length)`; the random draw is
modelled by an arbitrary `rand : Nat` reduced into range. -/
def getRandomChallenge {F : Type} (reg : List (ChallengeRecord F))
    (difficulty : Int) (rand : Nat) : Except String (ChallengeRecord F) :=
  let available := reg.filter (eligibleAt difficulty)
  if h : available.length = 0 then
    .error "No challenges available at this difficulty level"
  else
    .ok (available.get ⟨rand % available.length,
      Nat.mod_lt _ (Nat.pos_of_ne_zero h)⟩)

/-! ## Game engine (`GameEngine`, `src/js/core/engine.js`)

The engine is single-threaded JS: "concurrency" is the interleaving of
synchronous calls (`submitAnswer`, `pauseGame`, ...), the countdown tick
that reaches zero, and the `setTimeout` pacing continuations.  We model
an engine configuration as the `GameEngine` fields plus, for each kind
of scheduled continuation, the number currently pending
(`setTimeout(() => nextChallenge())`, `setTimeout(() => endGame())`, and
the post-`challengeReady` delayed `startTimer()` of the async
`nextChallenge`).  A trace is a list of `Action`s: each action is either
a synchronous public call, the expiry tick of a running countdown, or
the firing of one pending continuation; firing requests with nothing
pending are no-ops, so invariants proved over all action lists cover
every real schedule. -/

/-- The four keys of `categoryStats` (a challenge instance's
`category`). -/
inductive Cat where
  | math
  | logic
  | memory
  | puzzle
deriving DecidableEq

/-- One entry of `categoryStats`. -/
structure CatStat where
  correct : Int
  attempts : Int
deriving DecidableEq

/-- The fixed `categoryStats` object. -/
structure CategoryStats where
  math : CatStat
  logic : CatStat
  memory : CatStat
  puzzle : CatStat
deriving DecidableEq

/-- `categoryStats[category]`. -/
def CategoryStats.get (cs : CategoryStats) : Cat → CatStat
  | .math => cs.math
  | .logic => cs.logic
  | .memory => cs.memory
  | .puzzle => cs.puzzle

/-- `categoryStats[category].attempts++`. -/
def CategoryStats.bumpAttempts (cs : CategoryStats) : Cat → CategoryStats
  | .math => { cs with math := { cs.math with attempts := cs.math.attempts + 1 } }
  | .logic => { cs with logic := { cs.logic with attempts := cs.logic.attempts + 1 } }
  | .memory => { cs with memory := { cs.memory with attempts := cs.memory.attempts + 1 } }
  | .puzzle => { cs with puzzle := { cs.puzzle with attempts := cs.puzzle.attempts + 1 } }

/-- `categoryStats[category].correct++`. -/
def CategoryStats.bumpCorrect (cs : CategoryStats) : Cat → CategoryStats
  | .math => { cs with math := { cs.math with correct := cs.math.correct + 1 } }
  | .logic => { cs with logic := { cs.logic with correct := cs.logic.correct + 1 } }
  | .memory => { cs with memory := { cs.memory with correct := cs.memory.correct + 1 } }
  | .puzzle => { cs with puzzle := { cs.puzzle with correct := cs.puzzle.correct + 1 } }

/-- `this.state` of `GameEngine`.  `timerRunning` models
`timerInterval !== null`; `startTime` (a wall-clock stamp) is external
and omitted. -/
structure GameState where
  isPlaying : Bool
  isPaused : Bool
  lives : Int
  maxLives : Int
  score : Int
  winStreak : Int
  difficulty : Int
  currentChallengeType : Option Cat
  totalChallenges : Int
  correctAnswers : Int
  wrongAnswers : Int
  categoryStats : CategoryStats
  timeRemaining : Rat
  baseTime : Rat
  timerRunning : Bool
deriving DecidableEq

/-- `getInitialState()`. -/
def getInitialState : GameState :=
  { isPlaying := false
    isPaused := false
    lives := 5
    maxLives := 5
    score := 0
    winStreak := 0
    difficulty := 1
    currentChallengeType := none
    totalChallenges := 0
    correctAnswers := 0
    wrongAnswers := 0
    categoryStats := ⟨⟨0, 0⟩, ⟨0, 0⟩, ⟨0, 0⟩, ⟨0, 0⟩⟩
    timeRemaining := 0
    baseTime := 20
    timerRunning := false }

/-- An engine configuration: the `GameEngine` instance fields
(`this.state`, `this.currentChallenge` — represented by the active
instance's category, its other members being opaque to the engine's
state logic) plus the pending-continuation counters of the scheduling
model. -/
structure Engine where
  state : GameState
  currentChallenge : Option Cat
  pendingNext : Nat
  pendingEnd : Nat
  pendingStart : Nat
deriving DecidableEq

/-- The events the engine emits, with the payload fields the claims are
about.  `answerWrong` carries the updated lives (its `correctAnswer`
payload is opaque); `gameOver` carries the accuracy field, `none`
standing for the non-finite result of `Math.round(c / 0 * 100)`;
`timerTick` ticks before expiry carry no state and are not modelled. -/
inductive Event where
  | gameStart
  | challengeReady (category : Cat) (difficulty : Int) (timeLimit : Rat)
  | answerCorrect (score difficulty winStreak lives : Int)
  | answerWrong (lives : Int)
  | timeoutFired
  | lifeGained (lives : Int)
  | gamePaused
  | gameResumed
  | gameOver (accuracy : Option Int)
deriving DecidableEq

/-- JS `Math.round(x)`: round half toward positive infinity. -/
def jsRound (q : Rat) : Int := ⌊q + 1 / 2⌋

/-- The `accuracy` field of the `gameOver` payload:
`Math.round((correctAnswers / totalChallenges) * 100)`.  When
`totalChallenges` is `0` the division is `NaN` (or `Infinity`), and
rounding a non-finite value is non-finite: modelled as `none`. -/
def jsAccuracy (correctAnswers totalChallenges : Int) : Option Int :=
  if totalChallenges = 0 then none
  else some (jsRound ((correctAnswers : Rat) / (totalChallenges : Rat) * 100))

/-- `endGame()`: a no-op when not playing; otherwise stops play and the
timer, hands the aggregates to the external stats updater, and emits
`gameOver` (duration and high-score fields are external). -/
def endGame (e : Engine) : Engine × List Event :=
  if e.state.isPlaying = false then (e, [])
  else
    ({ e with state := { e.state with isPlaying := false, timerRunning := false } },
     [Event.gameOver (jsAccuracy e.state.correctAnswers e.state.totalChallenges)])

/-- `handleWrongAnswer()`: decrement lives unconditionally; when the
result is `≤ 0` schedule only `endGame` (the early return), otherwise
schedule only `nextChallenge`. -/
def handleWrongAnswer (e : Engine) : Engine × List Event :=
  let s := { e.state with
    wrongAnswers := e.state.wrongAnswers + 1
    winStreak := 0
    lives := e.state.lives - 1 }
  if s.lives ≤ 0 then
    ({ e with state := s, pendingEnd := e.pendingEnd + 1 }, [Event.answerWrong s.lives])
  else
    ({ e with state := s, pendingNext := e.pendingNext + 1 }, [Event.answerWrong s.lives])

/-- `handleCorrectAnswer()`: bump score/streak/category/difficulty; on
the third consecutive win grant a life (and emit `lifeGained`) only
below `maxLives`, and reset the streak either way; then emit
`answerCorrect` and schedule `nextChallenge`.  The source reads the
category from `this.currentChallenge` (non-null at every call site). -/
def handleCorrectAnswer (e : Engine) : Engine × List Event :=
  match e.currentChallenge with
  | none => (e, [])
  | some category =>
    let s := { e.state with
      score := e.state.score + 1
      correctAnswers := e.state.correctAnswers + 1
      winStreak := e.state.winStreak + 1
      categoryStats := e.state.categoryStats.bumpCorrect category
      difficulty := e.state.difficulty + 1 }
    let p : GameState × List Event :=
      if s.winStreak = 3 then
        if s.lives < s.maxLives then
          ({ s with lives := s.lives + 1, winStreak := 0 },
           [Event.lifeGained (s.lives + 1)])
        else ({ s with winStreak := 0 }, [])
      else (s, [])
    ({ e with state := p.1, pendingNext := e.pendingNext + 1 },
     p.2 ++ [Event.answerCorrect p.1.score p.1.difficulty p.1.winStreak p.1.lives])

/-- `submitAnswer(answer)`: ignored unless playing with an active
challenge (note: `isPaused` is not checked); otherwise stop the timer,
grade, bump `categoryStats[category].attempts`, and branch.  The
challenge's own `check(answer)` verdict is the external `isCorrect`. -/
def submitAnswer (isCorrect : Bool) (e : Engine) : Engine × List Event :=
  match e.currentChallenge with
  | none => (e, [])
  | some category =>
    if e.state.isPlaying = false then (e, [])
    else
      let e := { e with state := { e.state with
        timerRunning := false
        categoryStats := e.state.categoryStats.bumpAttempts category } }
      if isCorrect then handleCorrectAnswer e else handleWrongAnswer e

/-- `handleTimeout()`: ignored when already dead or the game ended;
otherwise emit `timeoutFired` and run the wrong-answer transition
(timeouts do not touch `categoryStats`). -/
def handleTimeout (e : Engine) : Engine × List Event :=
  if e.state.lives ≤ 0 ∨ e.state.isPlaying = false then (e, [])
  else
    let p := handleWrongAnswer e
    (p.1, Event.timeoutFired :: p.2)

/-- The countdown tick on which `timeRemaining` reaches `≤ 0`: the tick
first self-cancels when the game is over, otherwise clamps the clock,
stops itself and calls `handleTimeout`.  Only possible while the
interval is running. -/
def timerExpires (e : Engine) : Engine × List Event :=
  if e.state.timerRunning = false then (e, [])
  else if e.state.isPlaying = false ∨ e.state.lives ≤ 0 then
    ({ e with state := { e.state with timerRunning := false } }, [])
  else
    handleTimeout
      { e with state := { e.state with timeRemaining := 0, timerRunning := false } }

/-- `nextChallenge()` (the active, async variant): bail out when not
playing; end the game when out of lives; otherwise clean up, stop the
timer, and acquire a challenge.  `pick` is the registry's answer:
`some (category, metadata.baseTime)` for the record
`getRandomChallenge` returned (the factory's instance carrying that
category), `none` when acquisition threw (caught: `endGame`).  On
success the instance is installed, `totalChallenges` is bumped, the
budget comes from `getBaseTimer`, `challengeReady` is emitted, and
`startTimer()` is scheduled after the 2.5 s reading delay. -/
def nextChallenge (pick : Option (Cat × Rat)) (e : Engine) : Engine × List Event :=
  if e.state.isPlaying = false then (e, [])
  else if e.state.lives ≤ 0 then endGame e
  else
    let e := { e with state := { e.state with timerRunning := false } }
    match pick with
    | none => endGame e
    | some (category, challengeBaseTime) =>
      let bt := getBaseTimer challengeBaseTime e.state.difficulty
      ({ e with
          state := { e.state with
            currentChallengeType := some category
            totalChallenges := e.state.totalChallenges + 1
            baseTime := bt
            timeRemaining := bt }
          currentChallenge := some category
          pendingStart := e.pendingStart + 1 },
       [Event.challengeReady category e.state.difficulty bt])

/-- `pauseGame()`: only while playing and not yet paused; freezes the
countdown. -/
def pauseGame (e : Engine) : Engine × List Event :=
  if e.state.isPlaying = false ∨ e.state.isPaused = true then (e, [])
  else
    ({ e with state := { e.state with isPaused := true, timerRunning := false } },
     [Event.gamePaused])

/-- `resumeGame()`: only while playing and paused; restarts the
countdown from the frozen `timeRemaining`. -/
def resumeGame (e : Engine) : Engine × List Event :=
  if e.state.isPlaying = false ∨ e.state.isPaused = false then (e, [])
  else
    ({ e with state := { e.state with isPaused := false, timerRunning := true } },
     [Event.gameResumed])

/-- One schedulable occurrence: a synchronous public call, the countdown
expiring, or one pending `setTimeout` continuation firing. -/
inductive Action where
  | submit (isCorrect : Bool)
  | expire
  | fireNext (pick : Option (Cat × Rat))
  | fireEnd
  | fireStart
  | pause
  | resume
deriving DecidableEq

/-- Fire one pending `setTimeout(() => this.nextChallenge())`. -/
def fireNext (pick : Option (Cat × Rat)) (e : Engine) : Engine × List Event :=
  if e.pendingNext = 0 then (e, [])
  else nextChallenge pick { e with pendingNext := e.pendingNext - 1 }

/-- Fire one pending `setTimeout(() => this.endGame())`. -/
def fireEnd (e : Engine) : Engine × List Event :=
  if e.pendingEnd = 0 then (e, [])
  else endGame { e with pendingEnd := e.pendingEnd - 1 }

/-- Fire one pending delayed `startTimer()` (the 2.5 s grace delay of
the async `nextChallenge`). -/
def fireStart (e : Engine) : Engine × List Event :=
  if e.pendingStart = 0 then (e, [])
  else
    ({ e with
        pendingStart := e.pendingStart - 1
        state := { e.state with timerRunning := true } }, [])

/-- One step of the interleaving semantics. -/
def step (e : Engine) : Action → Engine × List Event
  | .submit isCorrect => submitAnswer isCorrect e
  | .expire => timerExpires e
  | .fireNext pick => fireNext pick e
  | .fireEnd => fireEnd e
  | .fireStart => fireStart e
  | .pause => pauseGame e
  | .resume => resumeGame e

/-- Run a list of actions, concatenating the emitted events. -/
def run (e : Engine) : List Action → Engine × List Event
  | [] => (e, [])
  | a :: rest =>
    let p := step e a
    let q := run p.1 rest
    (q.1, p.2 ++ q.2)

/-- A freshly constructed `GameEngine`. -/
def Engine.initial : Engine :=
  { state := getInitialState
    currentChallenge := none
    pendingNext := 0
    pendingEnd := 0
    pendingStart := 0 }

/-- The engine right after `startGame()` reset the state and raised
`isPlaying`, before `nextChallenge` runs. -/
def startEngine : Engine :=
  { Engine.initial with state := { getInitialState with isPlaying := true } }

/-- `startGame()` on a fresh engine: reset the state, start playing,
emit `gameStart`, and immediately call `nextChallenge` (its synchronous
prefix up to the first `await`). -/
def startGame (pick : Option (Cat × Rat)) : Engine × List Event :=
  let p := nextChallenge pick startEngine
  (p.1, Event.gameStart :: p.2)

/-- A whole game: `startGame()` with the registry's first answer `pick`,
followed by any interleaving of calls, continuations and expiries. -/
def runFromStart (pick : Option (Cat × Rat)) (acts : List Action) :
    Engine × List Event :=
  let p := startGame pick
  let q := run p.1 acts
  (q.1, p.2 ++ q.2)

/-! ## Event bookkeeping used by the theorems -/

/-- Number of events in a trace satisfying `p`. -/
def countEvents (p : Event → Bool) (evs : List Event) : Nat :=
  (evs.filter p).length

/-- Is this a `challengeReady` event? -/
def isChallengeReady : Event → Bool
  | .challengeReady _ _ _ => true
  | _ => false

/-- Is this a `gameOver` event? -/
def isGameOver : Event → Bool
  | .gameOver _ => true
  | _ => false

/-- Is this a `timeout` event? -/
def isTimeoutFired : Event → Bool
  | .timeoutFired => true
  | _ => false

/-- `1` while the game is playing, `0` once it has ended (or before it
starts). -/
def playingInd (e : Engine) : Nat :=
  if e.state.isPlaying then 1 else 0

/-- The sum of `categoryStats[c].attempts` over the four categories. -/
def sumAttempts (cs : CategoryStats) : Int :=
  cs.math.attempts + cs.logic.attempts + cs.memory.attempts + cs.puzzle.attempts

/-! ## Concrete configurations used by witnesses and counterexamples -/

/-- A concrete registry record: a registration with no metadata. -/
def sampleRecord : ChallengeRecord Nat :=
  buildRecord Nat "quick-math" "math" 0 emptyMetadata

/-- A mid-game configuration: playing, a math challenge active, the
countdown running, two consecutive wins banked, three lives left. -/
def midGameEngine : Engine :=
  { state := { getInitialState with
      isPlaying := true
      winStreak := 2
      lives := 3
      timerRunning := true
      currentChallengeType := some Cat.math }
    currentChallenge := some Cat.math
    pendingNext := 0
    pendingEnd := 0
    pendingStart := 0 }

/-- Like `midGameEngine` but at full health. -/
def fullHealthEngine : Engine :=
  { midGameEngine with state := { midGameEngine.state with lives := 5 } }

/-- A playing configuration about to end with 3 of 4 challenges
answered correctly. -/
def threeOfFourEngine : Engine :=
  { state := { getInitialState with
      isPlaying := true
      totalChallenges := 4
      correctAnswers := 3 }
    currentChallenge := some Cat.math
    pendingNext := 0
    pendingEnd := 0
    pendingStart := 0 }

/-- A playing configuration that never loaded a challenge. -/
def zeroChallengesEngine : Engine :=
  { state := { getInitialState with isPlaying := true }
    currentChallenge := none
    pendingNext := 0
    pendingEnd := 0
    pendingStart := 0 }

/-- A paused mid-game configuration with an active math challenge. -/
def pausedEngine : Engine :=
  { state := { getInitialState with isPlaying := true, isPaused := true }
    currentChallenge := some Cat.math
    pendingNext := 0
    pendingEnd := 0
    pendingStart := 0 }

end Intska

namespace Intska

/-! ## Claims about the difficulty scaler -/

/-- C6: for every nominal base time and every difficulty (in particular
every difficulty ≥ 1), the computed time budget `getBaseTimer(base,
difficulty)` is at least the floor of 5 time-units, however large the
difficulty grows. -/
theorem c6_timer_floor (base : Rat) (difficulty : Int) :
    5 ≤ getBaseTimer base difficulty :=
  le_max_right _ _

/-- C10 counterexample: "toString" is outside
{math, logic, memory, puzzle}, yet `configs["toString"]` finds the
inherited truthy `Object.prototype.toString`, which
`configs[challengeType] || configs.math` returns instead of the math
parameter set. -/
theorem c10_prototype_key_not_math :
    ("toString" ≠ "math" ∧ "toString" ≠ "logic" ∧ "toString" ≠ "memory" ∧
      "toString" ≠ "puzzle") ∧
    getDifficultyParams "toString" 7 = .protoMember "toString" ∧
    getDifficultyParams "toString" 7 ≠ .math (getMathDifficulty 7) := by
  refine ⟨by decide, rfl, ?_⟩
  intro h
  cases h

/-- C10 amended: `getDifficultyParams(challengeType, difficulty)` is
total over all category strings, but the math-parameter fallback
applies only to strings that are neither the four categories nor
property names inherited from `Object.prototype`; for an inherited key
such as "toString" the lookup returns the truthy prototype member
instead of the math parameter set. -/
theorem c10_lookup_fallback (challengeType : String) (difficulty : Int)
    (h1 : challengeType ≠ "math") (h2 : challengeType ≠ "logic")
    (h3 : challengeType ≠ "memory") (h4 : challengeType ≠ "puzzle") :
    (challengeType ∉ objectPrototypeKeys →
      getDifficultyParams challengeType difficulty =
        .math (getMathDifficulty difficulty)) ∧
    (challengeType ∈ objectPrototypeKeys →
      getDifficultyParams challengeType difficulty =
        .protoMember challengeType) := by
  constructor <;> intro hmem <;>
    simp [getDifficultyParams, h1, h2, h3, h4, hmem]

/-- Witness for C10 amended: the ordinary unknown string "spatial"
falls back to math parameters, while the inherited key "toString" does
not. -/
theorem c10_lookup_fallback_witness :
    getDifficultyParams "spatial" 7 = .math (getMathDifficulty 7) ∧
    getDifficultyParams "toString" 7 = .protoMember "toString" :=
  ⟨(c10_lookup_fallback "spatial" 7 (by decide) (by decide) (by decide)
      (by decide)).1 (by decide),
   (c10_lookup_fallback "toString" 7 (by decide) (by decide) (by decide)
      (by decide)).2 (by decide)⟩

/-! ## Claims about the registry -/

/-- C5: for every registry contents and every difficulty,
`getRandomChallenge(difficulty)` throws exactly when no registered
record satisfies `minDifficulty ≤ difficulty ≤ maxDifficulty`, and
otherwise returns one of the registered records satisfying that bound —
the record itself (the function reads the registry and builds nothing
new, leaving it unchanged). -/
theorem c5_getRandomChallenge_spec (F : Type) (reg : List (ChallengeRecord F))
    (difficulty : Int) (rand : Nat) :
    ((∃ msg, getRandomChallenge reg difficulty rand = .error msg) ↔
      ∀ r ∈ reg, eligibleAt difficulty r = false) ∧
    (∀ r, getRandomChallenge reg difficulty rand = .ok r →
      r ∈ reg ∧ eligibleAt difficulty r = true) := by
  simp only [getRandomChallenge]
  by_cases h : (reg.filter (eligibleAt difficulty)).length = 0
  · rw [dif_pos h]
    have h0 : reg.filter (eligibleAt difficulty) = [] :=
      List.length_eq_zero.mp h
    constructor
    · constructor
      · intro _ r hr
        by_contra hc
        have hmem : r ∈ reg.filter (eligibleAt difficulty) :=
          List.mem_filter.mpr ⟨hr, by simpa using hc⟩
        rw [h0] at hmem
        simp at hmem
      · intro _
        exact ⟨_, rfl⟩
    · intro r hok
      simp at hok
  · rw [dif_neg h]
    constructor
    · constructor
      · intro hex
        obtain ⟨msg, hmsg⟩ := hex
        simp at hmsg
      · intro hall
        exact absurd (List.length_eq_zero.mpr
          (List.filter_eq_nil_iff.mpr fun r hr => by simp [hall r hr])) h
    · intro r hok
      have hget := (Except.ok.injEq _ _).mp hok
      have hmem : r ∈ reg.filter (eligibleAt difficulty) := by
        rw [← hget]
        exact List.get_mem _ _ _
      exact ⟨(List.mem_filter.mp hmem).1, (List.mem_filter.mp hmem).2⟩

/-- Witness for C5: on the one-record registry the pick is returned and
is eligible, and on the empty registry the call throws. -/
theorem c5_getRandomChallenge_spec_witness :
    (sampleRecord ∈ [sampleRecord] ∧ eligibleAt 1 sampleRecord = true) ∧
    (∃ msg, getRandomChallenge ([] : List (ChallengeRecord Nat)) 1 0 =
      .error msg) :=
  ⟨(c5_getRandomChallenge_spec Nat [sampleRecord] 1 0).2 sampleRecord rfl,
   (c5_getRandomChallenge_spec Nat [] 1 0).1.mpr (by simp)⟩

/-- C9: a registration whose metadata omits every field stores a record
filled with the defaults `name = id`, `description = ''`,
`minDifficulty = 1`, `maxDifficulty = Infinity`, `baseTime = 20`; such a
record is eligible for `getRandomChallenge` at every difficulty ≥ 1, and
is what `register` puts into the registry. -/
theorem c9_register_defaults (F : Type) (id category : String) (factory : F)
    (reg : List (ChallengeRecord F)) (difficulty : Int)
    (h : 1 ≤ difficulty) :
    (buildRecord F id category factory emptyMetadata).metadata.name = id ∧
    (buildRecord F id category factory emptyMetadata).metadata.description = "" ∧
    (buildRecord F id category factory emptyMetadata).metadata.minDifficulty = 1 ∧
    (buildRecord F id category factory emptyMetadata).metadata.maxDifficulty = none ∧
    (buildRecord F id category factory emptyMetadata).metadata.baseTime = 20 ∧
    eligibleAt difficulty (buildRecord F id category factory emptyMetadata) = true ∧
    buildRecord F id category factory emptyMetadata ∈
      register reg id category factory emptyMetadata := by
  refine ⟨rfl, rfl, rfl, rfl, rfl, ?_, ?_⟩
  · simp [eligibleAt, buildRecord, emptyMetadata, jsOrInt, jsOrInfinity]
    exact h
  · unfold register
    by_cases hany : reg.any (fun x => x.id = id)
    · rw [if_pos hany]
      obtain ⟨x, hx, hxid⟩ := List.any_eq_true.mp hany
      have hid : x.id = id := by simpa using hxid
      refine List.mem_map.mpr ⟨x, hx, ?_⟩
      simp [hid]
    · rw [if_neg hany]
      exact List.mem_append_right _ (List.mem_singleton.mpr rfl)

/-! ## Helper lemmas about the engine's handlers -/

/-- `handleWrongAnswer` always resets the streak. -/
theorem handleWrongAnswer_winStreak (e : Engine) :
    (handleWrongAnswer e).1.state.winStreak = 0 := by
  simp only [handleWrongAnswer]
  split <;> rfl

/-- `handleWrongAnswer` always decrements lives. -/
theorem handleWrongAnswer_lives (e : Engine) :
    (handleWrongAnswer e).1.state.lives = e.state.lives - 1 := by
  simp only [handleWrongAnswer]
  split <;> rfl

/-- `handleWrongAnswer` emits exactly one `answerWrong`. -/
theorem handleWrongAnswer_events (e : Engine) :
    (handleWrongAnswer e).2 = [Event.answerWrong (e.state.lives - 1)] := by
  simp only [handleWrongAnswer]
  split <;> rfl

/-- Bumping `correct` for one category never touches any `attempts`
counter. -/
theorem bumpCorrect_attempts (cs : CategoryStats) (c c' : Cat) :
    ((cs.bumpCorrect c).get c').attempts = (cs.get c').attempts := by
  cases c <;> cases c' <;> rfl

/-- Bumping `attempts` for a category increments exactly that counter. -/
theorem bumpAttempts_get (cs : CategoryStats) (c : Cat) :
    ((cs.bumpAttempts c).get c).attempts = (cs.get c).attempts + 1 := by
  cases c <;> rfl

/-- Witness for C9 at a concrete registration and difficulty 1. -/
theorem c9_register_defaults_witness :
    (buildRecord Nat "quick-math" "math" 0 emptyMetadata).metadata.name =
      "quick-math" ∧
    (buildRecord Nat "quick-math" "math" 0 emptyMetadata).metadata.description = "" ∧
    (buildRecord Nat "quick-math" "math" 0 emptyMetadata).metadata.minDifficulty = 1 ∧
    (buildRecord Nat "quick-math" "math" 0 emptyMetadata).metadata.maxDifficulty =
      none ∧
    (buildRecord Nat "quick-math" "math" 0 emptyMetadata).metadata.baseTime = 20 ∧
    eligibleAt 1 (buildRecord Nat "quick-math" "math" 0 emptyMetadata) = true ∧
    buildRecord Nat "quick-math" "math" 0 emptyMetadata ∈
      register [] "quick-math" "math" 0 emptyMetadata :=
  c9_register_defaults Nat "quick-math" "math" 0 [] 1 (by decide)

/-! ## Claims about the engine -/

/-- C1: the lower lives bound fails.  `submitAnswer` guards only on
`isPlaying` and `currentChallenge`, both of which still hold during the
1 s pacing delay `handleWrongAnswer` schedules before `endGame`, and
`handleWrongAnswer` decrements unconditionally: starting a game and
submitting six wrong answers before any pacing callback fires drives
`lives` to `-1`. -/
theorem c1_lives_reach_minus_one :
    (runFromStart (some (Cat.math, 20))
      (List.replicate 6 (.submit false))).1.state.lives = -1 := by
  decide

/-- C2 counterexample: after five wrong answers `lives` has reached `0`
(with `endGame` pending), yet three quick correct submissions on the
still-active challenge drive `winStreak` to 3, regain a life, and the
pacing continuation they schedule emits a further `challengeReady` —
all before the pending `endGame` fires. -/
theorem c2_challengeReady_after_death :
    (runFromStart (some (Cat.math, 20))
      (List.replicate 5 (.submit false))).1.state.lives = 0 ∧
    countEvents isChallengeReady
      (run (runFromStart (some (Cat.math, 20))
          (List.replicate 5 (.submit false))).1
        [.submit true, .submit true, .submit true,
         .fireNext (some (Cat.math, 20))]).2 = 1 := by
  decide

/-- C3: after any graded wrong answer or processed timeout the streak is
0; and a correct answer that takes `winStreak` to exactly 3 grants a
life and emits `lifeGained` precisely when `lives < maxLives`, resetting
the streak in either case. -/
theorem c3_streak_law (e : Engine) (category : Cat)
    (hplay : e.state.isPlaying = true)
    (hch : e.currentChallenge = some category) :
    (submitAnswer false e).1.state.winStreak = 0 ∧
    (e.state.timerRunning = true → 0 < e.state.lives →
      (timerExpires e).1.state.winStreak = 0) ∧
    (e.state.winStreak = 2 →
      (submitAnswer true e).1.state.winStreak = 0 ∧
      (e.state.lives < e.state.maxLives →
        (submitAnswer true e).1.state.lives = e.state.lives + 1 ∧
        Event.lifeGained (e.state.lives + 1) ∈ (submitAnswer true e).2) ∧
      (e.state.maxLives ≤ e.state.lives →
        (submitAnswer true e).1.state.lives = e.state.lives ∧
        ∀ n, Event.lifeGained n ∉ (submitAnswer true e).2)) := by
  refine ⟨?_, ?_, ?_⟩
  · simp only [submitAnswer, hch, hplay]
    simp [handleWrongAnswer_winStreak]
  · intro htimer hlives
    simp only [timerExpires, htimer, hplay]
    simp only [handleTimeout]
    have h1 : ¬(e.state.lives ≤ 0) := by omega
    simp [h1, hlives, handleWrongAnswer_winStreak]
  · intro hstreak
    simp only [submitAnswer, hch, hplay]
    simp only [Bool.false_eq_true, if_false, if_true]
    simp only [handleCorrectAnswer, hch]
    simp only [hstreak]
    norm_num
    by_cases hl : e.state.lives < e.state.maxLives
    · simp [hl]
      try omega
    · simp [hl]
      try omega

/-- Witness for C3: at `midGameEngine` (streak 2, three lives) the
streak resets on every outcome and the third win grants the life; at
`fullHealthEngine` no life is granted and no `lifeGained` is emitted. -/
theorem c3_streak_law_witness :
    (submitAnswer false midGameEngine).1.state.winStreak = 0 ∧
    (timerExpires midGameEngine).1.state.winStreak = 0 ∧
    (submitAnswer true midGameEngine).1.state.winStreak = 0 ∧
    (submitAnswer true midGameEngine).1.state.lives = 4 ∧
    Event.lifeGained 4 ∈ (submitAnswer true midGameEngine).2 ∧
    (submitAnswer true fullHealthEngine).1.state.lives = 5 ∧
    (∀ n, Event.lifeGained n ∉ (submitAnswer true fullHealthEngine).2) := by
  have h1 := c3_streak_law midGameEngine Cat.math rfl rfl
  have h2 := c3_streak_law fullHealthEngine Cat.math rfl rfl
  refine ⟨h1.1, h1.2.1 rfl (by decide), (h1.2.2 rfl).1,
    by simpa using ((h1.2.2 rfl).2.1 (by decide)).1,
    by simpa using ((h1.2.2 rfl).2.1 (by decide)).2,
    by simpa using ((h2.2.2 rfl).2.2 (by decide)).1,
    ((h2.2.2 rfl).2.2 (by decide)).2⟩

/-- C4 counterexample: present one challenge and let it time out.  The
timeout is a wrong outcome attributed to the active math challenge, yet
`categoryStats.math.attempts` stays 0 (timeouts never touch attempts),
and the attempts sum (0) differs from `totalChallenges` (1). -/
theorem c4_timeout_not_counted :
    (runFromStart (some (Cat.math, 20))
      [.fireStart, .expire]).1.state.currentChallengeType = some Cat.math ∧
    (runFromStart (some (Cat.math, 20))
      [.fireStart, .expire]).1.state.wrongAnswers = 1 ∧
    countEvents isTimeoutFired
      (runFromStart (some (Cat.math, 20)) [.fireStart, .expire]).2 = 1 ∧
    (runFromStart (some (Cat.math, 20))
      [.fireStart, .expire]).1.state.categoryStats.math.attempts = 0 ∧
    sumAttempts (runFromStart (some (Cat.math, 20))
      [.fireStart, .expire]).1.state.categoryStats = 0 ∧
    (runFromStart (some (Cat.math, 20))
      [.fireStart, .expire]).1.state.totalChallenges = 1 := by
  decide

/-- C7 counterexample: a game whose first challenge acquisition fails
ends with `totalChallenges = 0`, and the `gameOver` accuracy field is
the unguarded `Math.round(0/0 * 100)` — `NaN`, not a defined value. -/
theorem c7_accuracy_nan_on_zero_challenges :
    (runFromStart none []).1.state.totalChallenges = 0 ∧
    (runFromStart none []).2 = [Event.gameStart, Event.gameOver none] := by
  decide

/-- C7 amended: when `endGame()` runs for a playing game the `gameOver`
accuracy equals `correctAnswers / totalChallenges` as a rounded
percentage whenever `totalChallenges > 0`; when `totalChallenges = 0`
the computation is not guarded and the field is the non-finite result of
dividing by zero. -/
theorem c7_accuracy_formula (e : Engine) (hplay : e.state.isPlaying = true) :
    (0 < e.state.totalChallenges →
      (endGame e).2 = [Event.gameOver (some ⌊(e.state.correctAnswers : Rat) /
        (e.state.totalChallenges : Rat) * 100 + 1 / 2⌋)]) ∧
    (e.state.totalChallenges = 0 → (endGame e).2 = [Event.gameOver none]) := by
  constructor
  · intro hpos
    have hne : e.state.totalChallenges ≠ 0 := by omega
    simp [endGame, hplay, jsAccuracy, jsRound, hne]
  · intro hzero
    simp [endGame, hplay, jsAccuracy, hzero]

/-- Witness for C7 amended: 3 correct of 4 rounds to 75 %, and a
zero-challenge game carries the undefined accuracy. -/
theorem c7_accuracy_formula_witness :
    (endGame threeOfFourEngine).2 = [Event.gameOver (some 75)] ∧
    (endGame zeroChallengesEngine).2 = [Event.gameOver none] := by
  constructor
  · have h := (c7_accuracy_formula threeOfFourEngine rfl).1 (by decide)
    rw [h]
    norm_num [threeOfFourEngine, getInitialState]
    try rw [Int.floor_eq_iff]
    try norm_num
  · exact (c7_accuracy_formula zeroChallengesEngine rfl).2 rfl

/-- C8 counterexample: `pauseGame()` then `submitAnswer` with a wrong
answer: the submission is graded anyway — lives drop from 5 to 4 and an
`answerWrong` event is emitted — so submission while paused is not a
no-op. -/
theorem c8_paused_submit_mutates :
    (runFromStart (some (Cat.math, 20)) [.pause]).1.state.isPaused = true ∧
    (runFromStart (some (Cat.math, 20)) [.pause]).1.state.lives = 5 ∧
    (runFromStart (some (Cat.math, 20))
      [.pause, .submit false]).1.state.lives = 4 ∧
    Event.answerWrong 4 ∈
      (runFromStart (some (Cat.math, 20)) [.pause, .submit false]).2 := by
  decide

/-- C8 amended: `submitAnswer` never consults `isPaused`: while paused
(playing, active challenge) a submission is processed normally — it
records the attempt and emits events. -/
theorem c8_submit_ignores_pause (e : Engine) (category : Cat)
    (isCorrect : Bool)
    (hplay : e.state.isPlaying = true)
    (_hpause : e.state.isPaused = true)
    (hch : e.currentChallenge = some category) :
    ((submitAnswer isCorrect e).1.state.categoryStats.get category).attempts =
      (e.state.categoryStats.get category).attempts + 1 ∧
    (submitAnswer isCorrect e).2 ≠ [] := by
  simp only [submitAnswer, hch, hplay]
  norm_num
  cases isCorrect
  · simp only [Bool.false_eq_true, if_false]
    refine ⟨?_, ?_⟩
    · simp only [handleWrongAnswer]
      split <;> simp [bumpAttempts_get]
    · rw [handleWrongAnswer_events]
      simp
  · simp only [if_true]
    simp only [handleCorrectAnswer, hch]
    refine ⟨?_, ?_⟩
    · split
      · split <;> simp [bumpCorrect_attempts, bumpAttempts_get]
      · simp [bumpCorrect_attempts, bumpAttempts_get]
    · split
      · split <;> simp
      · simp

/-! ## Inert-after-end and gameOver-uniqueness infrastructure (C2) -/

/-- Once `isPlaying` is false every action is absorbed silently: no
event is emitted and the game stays ended. -/
theorem step_not_playing (e : Engine) (a : Action)
    (h : e.state.isPlaying = false) :
    (step e a).2 = [] ∧ (step e a).1.state.isPlaying = false := by
  cases a with
  | submit b =>
    cases hc : e.currentChallenge with
    | none => simp [step, submitAnswer, hc, h]
    | some c => simp [step, submitAnswer, hc, h]
  | expire =>
    by_cases ht : e.state.timerRunning = false <;>
      simp [step, timerExpires, ht, h]
  | fireNext pick =>
    by_cases hp : e.pendingNext = 0 <;>
      simp [step, fireNext, hp, nextChallenge, h]
  | fireEnd =>
    by_cases hp : e.pendingEnd = 0 <;>
      simp [step, fireEnd, hp, endGame, h]
  | fireStart =>
    by_cases hp : e.pendingStart = 0 <;> simp [step, fireStart, hp, h]
  | pause => simp [step, pauseGame, h]
  | resume => simp [step, resumeGame, h]

/-- `step_not_playing`, extended along a whole action list. -/
theorem run_not_playing (e : Engine) (acts : List Action)
    (h : e.state.isPlaying = false) :
    (run e acts).2 = [] ∧ (run e acts).1.state.isPlaying = false := by
  induction acts generalizing e with
  | nil => exact ⟨rfl, h⟩
  | cons a rest ih =>
    have hs := step_not_playing e a h
    have hr := ih (step e a).1 hs.2
    simp only [run]
    exact ⟨by rw [hs.1, hr.1, List.nil_append], hr.2⟩

/-- `endGame` emits `gameOver` exactly when it flips `isPlaying` off. -/
theorem endGame_gameOver_count (e : Engine) :
    countEvents isGameOver (endGame e).2 + playingInd (endGame e).1 =
      playingInd e := by
  by_cases h : e.state.isPlaying = false <;>
    simp [endGame, h, countEvents, isGameOver, playingInd,
      Bool.not_eq_false]

/-- `handleWrongAnswer` never emits `gameOver` nor stops play (it only
schedules the end). -/
theorem handleWrongAnswer_gameOver_count (e : Engine) :
    countEvents isGameOver (handleWrongAnswer e).2 = 0 ∧
    (handleWrongAnswer e).1.state.isPlaying = e.state.isPlaying := by
  simp only [handleWrongAnswer]
  split <;> simp [countEvents, isGameOver]

/-- `handleCorrectAnswer` never emits `gameOver` nor stops play. -/
theorem handleCorrectAnswer_gameOver_count (e : Engine) :
    countEvents isGameOver (handleCorrectAnswer e).2 = 0 ∧
    (handleCorrectAnswer e).1.state.isPlaying = e.state.isPlaying := by
  cases hc : e.currentChallenge with
  | none => simp [handleCorrectAnswer, hc, countEvents]
  | some c =>
    simp only [handleCorrectAnswer, hc]
    split
    · split <;> simp [countEvents, isGameOver]
    · simp [countEvents, isGameOver]

/-- `nextChallenge` preserves the `gameOver`/`isPlaying` balance. -/
theorem nextChallenge_gameOver_count (pick : Option (Cat × Rat)) (e : Engine) :
    countEvents isGameOver (nextChallenge pick e).2 +
      playingInd (nextChallenge pick e).1 = playingInd e := by
  simp only [nextChallenge]
  by_cases hplay : e.state.isPlaying = false
  · rw [if_pos hplay]
    simp [countEvents, playingInd]
  · rw [if_neg hplay]
    by_cases hl : e.state.lives ≤ 0
    · rw [if_pos hl]
      exact endGame_gameOver_count e
    · rw [if_neg hl]
      cases pick with
      | none =>
        have h := endGame_gameOver_count
          { e with state := { e.state with timerRunning := false } }
        simpa [playingInd] using h
      | some p =>
        obtain ⟨c, bt⟩ := p
        simp [countEvents, isGameOver, playingInd]

/-- `handleTimeout` never emits `gameOver` nor stops play. -/
theorem handleTimeout_gameOver_count (e : Engine) :
    countEvents isGameOver (handleTimeout e).2 = 0 ∧
    (handleTimeout e).1.state.isPlaying = e.state.isPlaying := by
  simp only [handleTimeout]
  split
  · simp [countEvents]
  · have h := handleWrongAnswer_gameOver_count e
    constructor
    · simp only [countEvents, List.filter] at h ⊢
      simp [isGameOver, h.1]
    · exact h.2

/-- `submitAnswer` never emits `gameOver` nor stops play. -/
theorem submitAnswer_gameOver_count (b : Bool) (e : Engine) :
    countEvents isGameOver (submitAnswer b e).2 = 0 ∧
    (submitAnswer b e).1.state.isPlaying = e.state.isPlaying := by
  cases hc : e.currentChallenge with
  | none => simp [submitAnswer, hc, countEvents]
  | some c =>
    by_cases hplay : e.state.isPlaying = false
    · simp [submitAnswer, hc, hplay, countEvents]
    · simp only [submitAnswer, hc, hplay, if_false]
      cases b with
      | false =>
        simp only [Bool.false_eq_true, if_false]
        simpa using handleWrongAnswer_gameOver_count _
      | true =>
        simp only [if_true]
        simpa using handleCorrectAnswer_gameOver_count _

/-- The expiry tick never emits `gameOver` nor stops play. -/
theorem timerExpires_gameOver_count (e : Engine) :
    countEvents isGameOver (timerExpires e).2 = 0 ∧
    (timerExpires e).1.state.isPlaying = e.state.isPlaying := by
  simp only [timerExpires]
  split
  · simp [countEvents]
  · split
    · simp [countEvents]
    · simpa using handleTimeout_gameOver_count _

/-- One step preserves the `gameOver`/`isPlaying` balance. -/
theorem step_gameOver_count (e : Engine) (a : Action) :
    countEvents isGameOver (step e a).2 + playingInd (step e a).1 =
      playingInd e := by
  cases a with
  | submit b =>
    have h := submitAnswer_gameOver_count b e
    simp [step, playingInd, h.1, h.2]
  | expire =>
    have h := timerExpires_gameOver_count e
    simp [step, playingInd, h.1, h.2]
  | fireNext pick =>
    by_cases hp : e.pendingNext = 0
    · simp [step, fireNext, hp, countEvents]
    · simp only [step, fireNext, hp, if_false]
      have h := nextChallenge_gameOver_count pick
        { e with pendingNext := e.pendingNext - 1 }
      simpa [playingInd] using h
  | fireEnd =>
    by_cases hp : e.pendingEnd = 0
    · simp [step, fireEnd, hp, countEvents]
    · simp only [step, fireEnd, hp, if_false]
      have h := endGame_gameOver_count { e with pendingEnd := e.pendingEnd - 1 }
      simpa [playingInd] using h
  | fireStart =>
    by_cases hp : e.pendingStart = 0 <;>
      simp [step, fireStart, hp, countEvents, playingInd]
  | pause =>
    simp only [step, pauseGame]
    split <;> simp [countEvents, isGameOver, playingInd]
  | resume =>
    simp only [step, resumeGame]
    split <;> simp [countEvents, isGameOver, playingInd]

/-- A whole action list preserves the `gameOver`/`isPlaying` balance. -/
theorem run_gameOver_count (e : Engine) (acts : List Action) :
    countEvents isGameOver (run e acts).2 + playingInd (run e acts).1 =
      playingInd e := by
  induction acts generalizing e with
  | nil => simp [run, countEvents]
  | cons a rest ih =>
    have hs := step_gameOver_count e a
    have hr := ih (step e a).1
    simp only [run, countEvents, List.filter_append, List.length_append]
    simp only [countEvents] at hs hr
    omega

/-- `startGame` emits `gameOver` exactly when the immediate first
challenge acquisition already ends the game. -/
theorem startGame_gameOver_count (pick : Option (Cat × Rat)) :
    countEvents isGameOver (startGame pick).2 +
      playingInd (startGame pick).1 = 1 := by
  simp only [startGame]
  have h := nextChallenge_gameOver_count pick startEngine
  simp only [countEvents, List.filter] at h ⊢
  simp only [isGameOver] at h ⊢
  simpa [playingInd] using h

/-- C2 amended: per game at most one `gameOver` is emitted — exactly one
once `isPlaying` has become false — and from that point the engine is
silent: no further event (in particular no `challengeReady`) is ever
emitted.  The original "once lives reaches 0" bound fails because
correct submissions during the end-game pacing delay can regain a life
(see the counterexample); the `isPlaying = false` boundary is the one
the code enforces. -/
theorem c2_gameOver_unique_then_silence (pick : Option (Cat × Rat))
    (acts : List Action) :
    countEvents isGameOver (runFromStart pick acts).2 +
      playingInd (runFromStart pick acts).1 = 1 ∧
    ((runFromStart pick acts).1.state.isPlaying = false →
      ∀ acts2, (run (runFromStart pick acts).1 acts2).2 = []) := by
  constructor
  · simp only [runFromStart, countEvents, List.filter_append, List.length_append]
    have h1 := startGame_gameOver_count pick
    have h2 := run_gameOver_count (startGame pick).1 acts
    simp only [countEvents] at h1 h2
    omega
  · intro h acts2
    exact (run_not_playing _ acts2 h).1

/-- Witness for C2 amended: the immediately-over game (failed first
acquisition) has its one `gameOver`, and a later `endGame` continuation
emits nothing. -/
theorem c2_gameOver_unique_then_silence_witness :
    countEvents isGameOver (runFromStart none []).2 +
      playingInd (runFromStart none []).1 = 1 ∧
    (run (runFromStart none []).1 [Action.fireEnd]).2 = [] :=
  ⟨(c2_gameOver_unique_then_silence none []).1,
   (c2_gameOver_unique_then_silence none []).2 (by decide) [Action.fireEnd]⟩

/-! ## Attempts-accounting infrastructure (C4) -/

/-- Bumping a category's `attempts` adds one to the attempts total. -/
theorem sumAttempts_bumpAttempts (cs : CategoryStats) (c : Cat) :
    sumAttempts (cs.bumpAttempts c) = sumAttempts cs + 1 := by
  cases c <;> simp [sumAttempts, CategoryStats.bumpAttempts] <;> ring

/-- Bumping a category's `correct` leaves the attempts total alone. -/
theorem sumAttempts_bumpCorrect (cs : CategoryStats) (c : Cat) :
    sumAttempts (cs.bumpCorrect c) = sumAttempts cs := by
  cases c <;> simp [sumAttempts, CategoryStats.bumpCorrect]

/-- Bumping `attempts` never touches any `correct` counter. -/
theorem bumpAttempts_correct (cs : CategoryStats) (c c' : Cat) :
    ((cs.bumpAttempts c).get c').correct = (cs.get c').correct := by
  cases c <;> cases c' <;> rfl

/-- Bumping `correct` for a category increments exactly that counter. -/
theorem bumpCorrect_get (cs : CategoryStats) (c : Cat) :
    ((cs.bumpCorrect c).get c).correct = (cs.get c).correct + 1 := by
  cases c <;> rfl

/-- `handleWrongAnswer` leaves `categoryStats` and `correctAnswers`
alone, adds one wrong answer, and emits no timeout event. -/
theorem handleWrongAnswer_attempts (e : Engine) :
    (handleWrongAnswer e).1.state.categoryStats = e.state.categoryStats ∧
    (handleWrongAnswer e).1.state.correctAnswers = e.state.correctAnswers ∧
    (handleWrongAnswer e).1.state.wrongAnswers = e.state.wrongAnswers + 1 ∧
    countEvents isTimeoutFired (handleWrongAnswer e).2 = 0 := by
  simp only [handleWrongAnswer]
  split <;> simp [countEvents, isTimeoutFired]

/-- `endGame` changes no counters and emits no timeout event. -/
theorem endGame_attempts (e : Engine) :
    (endGame e).1.state.categoryStats = e.state.categoryStats ∧
    (endGame e).1.state.correctAnswers = e.state.correctAnswers ∧
    (endGame e).1.state.wrongAnswers = e.state.wrongAnswers ∧
    countEvents isTimeoutFired (endGame e).2 = 0 := by
  simp only [endGame]
  split <;> simp [countEvents, isTimeoutFired]

/-- `nextChallenge` changes no grading counters and emits no timeout
event (it only presents: `totalChallenges` and the clock change). -/
theorem nextChallenge_attempts (pick : Option (Cat × Rat)) (e : Engine) :
    (nextChallenge pick e).1.state.categoryStats = e.state.categoryStats ∧
    (nextChallenge pick e).1.state.correctAnswers = e.state.correctAnswers ∧
    (nextChallenge pick e).1.state.wrongAnswers = e.state.wrongAnswers ∧
    countEvents isTimeoutFired (nextChallenge pick e).2 = 0 := by
  simp only [nextChallenge]
  by_cases hplay : e.state.isPlaying = false
  · rw [if_pos hplay]
    simp [countEvents]
  · rw [if_neg hplay]
    by_cases hl : e.state.lives ≤ 0
    · rw [if_pos hl]
      exact endGame_attempts e
    · rw [if_neg hl]
      cases pick with
      | none =>
        simpa using endGame_attempts
          { e with state := { e.state with timerRunning := false } }
      | some p =>
        obtain ⟨c, bt⟩ := p
        simp [countEvents, isTimeoutFired]

/-- One step conserves `attempts-total + timeout-events` against
`correctAnswers + wrongAnswers`: attempts count exactly the graded
submissions, and timeouts make up the difference to the wrong-answer
counter. -/
theorem step_attempts_balance (e : Engine) (a : Action) :
    sumAttempts (step e a).1.state.categoryStats +
      (countEvents isTimeoutFired (step e a).2 : Int) +
      e.state.correctAnswers + e.state.wrongAnswers =
    sumAttempts e.state.categoryStats +
      (step e a).1.state.correctAnswers +
      (step e a).1.state.wrongAnswers := by
  cases a with
  | submit b =>
    cases hc : e.currentChallenge with
    | none => simp [step, submitAnswer, hc, countEvents]
    | some c =>
      simp only [step, submitAnswer, hc]
      by_cases hplay : e.state.isPlaying = false
      · rw [if_pos hplay]
        simp [countEvents]
      · rw [if_neg hplay]
        cases b with
        | false =>
          simp only [Bool.false_eq_true, if_false, handleWrongAnswer]
          split <;>
            simp [countEvents, isTimeoutFired, sumAttempts_bumpAttempts] <;>
            ring
        | true =>
          simp only [if_true, handleCorrectAnswer, hc]
          split
          · split <;>
              simp [countEvents, isTimeoutFired, sumAttempts_bumpAttempts,
                sumAttempts_bumpCorrect] <;> ring
          · simp [countEvents, isTimeoutFired, sumAttempts_bumpAttempts,
              sumAttempts_bumpCorrect]
            ring
  | expire =>
    simp only [step, timerExpires]
    split
    · simp [countEvents]
    · split
      · simp [countEvents]
      · simp only [handleTimeout]
        split
        · simp [countEvents]
        · simp only [handleWrongAnswer]
          split <;> simp [countEvents, isTimeoutFired] <;> ring
  | fireNext pick =>
    simp only [step, fireNext]
    split
    · simp [countEvents]
    · simp only [nextChallenge]
      split
      · simp [countEvents]
      · split
        · simp only [endGame]
          split <;> simp [countEvents, isTimeoutFired]
        · cases pick with
          | none =>
            simp only [endGame]
            split <;> simp [countEvents, isTimeoutFired]
          | some p =>
            obtain ⟨c, bt⟩ := p
            simp [countEvents, isTimeoutFired]
  | fireEnd =>
    simp only [step, fireEnd]
    split
    · simp [countEvents]
    · simp only [endGame]
      split <;> simp [countEvents, isTimeoutFired]
  | fireStart =>
    simp only [step, fireStart]
    split <;> simp [countEvents]
  | pause =>
    simp only [step, pauseGame]
    split <;> simp [countEvents, isTimeoutFired]
  | resume =>
    simp only [step, resumeGame]
    split <;> simp [countEvents, isTimeoutFired]

/-- The conservation of `step_attempts_balance` along a whole action
list. -/
theorem run_attempts_balance (e : Engine) (acts : List Action) :
    sumAttempts (run e acts).1.state.categoryStats +
      (countEvents isTimeoutFired (run e acts).2 : Int) +
      e.state.correctAnswers + e.state.wrongAnswers =
    sumAttempts e.state.categoryStats +
      (run e acts).1.state.correctAnswers +
      (run e acts).1.state.wrongAnswers := by
  induction acts generalizing e with
  | nil => simp [run, countEvents]
  | cons a rest ih =>
    have hs := step_attempts_balance e a
    have hr := ih (step e a).1
    simp only [run, countEvents, List.filter_append, List.length_append,
      Nat.cast_add] at hs hr ⊢
    omega

/-- C4 amended: `categoryStats[c].attempts` counts the *graded
submissions* for `c` — each submission on an active challenge of
category `c` adds exactly one attempt (and one `correct` exactly when
correct), while a timeout adds none — so over a whole game the attempts
total plus the number of timeout events equals
`correctAnswers + wrongAnswers`; the attempts total therefore tracks
graded submissions, not `totalChallenges` (which counts presented
challenges). -/
theorem c4_attempts_count_graded_submissions :
    (∀ pick acts,
      sumAttempts (runFromStart pick acts).1.state.categoryStats +
        (countEvents isTimeoutFired (runFromStart pick acts).2 : Int) =
        (runFromStart pick acts).1.state.correctAnswers +
        (runFromStart pick acts).1.state.wrongAnswers) ∧
    (∀ (e : Engine) (c : Cat) (b : Bool),
      e.state.isPlaying = true → e.currentChallenge = some c →
      ((submitAnswer b e).1.state.categoryStats.get c).attempts =
        (e.state.categoryStats.get c).attempts + 1 ∧
      ((submitAnswer b e).1.state.categoryStats.get c).correct =
        (e.state.categoryStats.get c).correct + (if b then 1 else 0)) ∧
    (∀ e : Engine,
      (timerExpires e).1.state.categoryStats = e.state.categoryStats) := by
  refine ⟨?_, ?_, ?_⟩
  · intro pick acts
    have hs := nextChallenge_attempts pick startEngine
    have h0 := run_attempts_balance (nextChallenge pick startEngine).1 acts
    have hsum : sumAttempts (nextChallenge pick startEngine).1.state.categoryStats
        = 0 := by rw [hs.1]; rfl
    have hcorr : (nextChallenge pick startEngine).1.state.correctAnswers = 0 := by
      rw [hs.2.1]; rfl
    have hwrong : (nextChallenge pick startEngine).1.state.wrongAnswers = 0 := by
      rw [hs.2.2.1]; rfl
    have hcount := hs.2.2.2
    simp only [runFromStart, startGame, countEvents, List.append_eq,
      List.cons_append, List.filter_append, List.length_append, List.filter,
      isTimeoutFired] at h0 hcount ⊢
    omega
  · intro e c b hplay hch
    simp only [submitAnswer, hch]
    rw [if_neg (by simp [hplay])]
    cases b with
    | false =>
      simp only [Bool.false_eq_true, if_false, handleWrongAnswer]
      split <;> simp [bumpAttempts_get, bumpAttempts_correct]
    | true =>
      simp only [if_true, handleCorrectAnswer, hch]
      split
      · split <;>
          simp [bumpCorrect_attempts, bumpAttempts_get, bumpCorrect_get,
            bumpAttempts_correct]
      · simp [bumpCorrect_attempts, bumpAttempts_get, bumpCorrect_get,
          bumpAttempts_correct]
  · intro e
    simp only [timerExpires]
    split
    · rfl
    · split
      · rfl
      · simp only [handleTimeout]
        split
        · rfl
        · simp only [handleWrongAnswer]
          split <;> rfl

/-- Witness for C4 amended: at `midGameEngine` a graded correct
submission records one attempt and one correct for math. -/
theorem c4_attempts_count_graded_submissions_witness :
    ((submitAnswer true midGameEngine).1.state.categoryStats.get
      Cat.math).attempts = 1 ∧
    ((submitAnswer true midGameEngine).1.state.categoryStats.get
      Cat.math).correct = 1 := by
  have h := c4_attempts_count_graded_submissions.2.1 midGameEngine Cat.math
    true rfl rfl
  exact ⟨by simpa using h.1, by simpa using h.2⟩

/-- Witness for C8 amended: at the concrete `pausedEngine` a wrong
submission records the attempt and emits an event. -/
theorem c8_submit_ignores_pause_witness :
    ((submitAnswer false pausedEngine).1.state.categoryStats.get
      Cat.math).attempts = 1 ∧
    (submitAnswer false pausedEngine).2 ≠ [] := by
  have h := c8_submit_ignores_pause pausedEngine Cat.math false rfl rfl rfl
  exact ⟨by simpa using h.1, h.2⟩

end Intska
